import Mathlib

/-
Verification of the CSG combinator of this repository (`src/core/csg_node.inl`).
The child aggregates of a `CsgNode` are polymorphic collaborators, so each query
is modelled as a pure function of the node's operation tag and of the data the
children return (their interaction lists, closest-point results, bounding boxes
and volumes).  Geometry that lives outside the given sources (interactions,
boxes, spheres, rays) is modelled from the spec with rational coordinates; a
one-dimensional normal component is enough for every claim considered here.
Machine floats are modelled by rationals: every quantity the CSG logic inspects
is only ever compared or negated, never rounded.
-/

namespace Fcpw

/-- Modelled from the spec: classification of a returned distance, either the
true geometric distance (`Exact`) or only a certified bound (`Bounded`);
`src/core/interaction.h` is not among the given sources. -/
inductive DistanceInfo where
  | Exact
  | Bounded
deriving DecidableEq, Repr

/-- Modelled from the spec: an `Interaction` records a distance `d`, a surface
normal `n` (one rational component), a `sign` (inside/outside indicator) and a
`distanceInfo` classification. -/
structure Interaction where
  d : ℚ
  n : ℚ
  sign : ℤ
  distanceInfo : DistanceInfo
deriving DecidableEq, Repr

/-- Modelled from the spec: a child's closest-point query reports a signed
distance to the query point, negative when the point is inside the shape; the
`sign` field is the inside/outside indicator, so the signed distance is
`sign * d`.  The query point is passed as in the source (`i.signedDistance(s.c)`)
although the model needs only the stored fields. -/
def Interaction.signedDistance (i : Interaction) (c : ℚ) : ℚ :=
  (i.sign : ℚ) * i.d

/-- Boolean operation tag of a CSG node. -/
inductive BooleanOperation where
  | Union
  | Intersection
  | Difference
  | None
deriving DecidableEq, Repr

/-- Modelled from the spec: a ray with origin, direction and a mutable `tMax`
(one-dimensional coordinates; the CSG combination logic never reads `o` or
`dir`, they are abstracted into the box test and the children's lists). -/
structure Ray where
  o : ℚ
  dir : ℚ
  tMax : ℚ
deriving DecidableEq, Repr

/-- Translation of the `addInteraction` lambda inside
`CsgNode::computeInteractions` (`src/core/csg_node.inl` lines 97-104): whether a
crossing is emitted when the running inside-count moves from `before` to
`after`. -/
def addInteraction (op : BooleanOperation) (before after : Int) : Bool :=
  if op = BooleanOperation.Intersection ∨ op = BooleanOperation.Difference then
    (before == 1 && after == 2) || (before == 2 && after == 1)
  else
    (before == 0 && after == 1) || (before == 1 && after == 0)

/-- Translation of the normal flip applied to an emitted right-hand crossing
when the operation is `Difference` (`src/core/csg_node.inl` line 125). -/
def flipNormalIfDifference (op : BooleanOperation) (i : Interaction) : Interaction :=
  if op = BooleanOperation.Difference then { i with n := -i.n } else i

/-- Translation of the merge loop of `CsgNode::computeInteractions`
(`src/core/csg_node.inl` lines 107-129).  The loop state is the two unconsumed
list suffixes, the two interval-start parities and the inside-count; `fuel`
bounds the number of iterations (each iteration consumes exactly one
interaction, so the sum of the input lengths suffices) and makes the recursion
structural. -/
def computeInteractionsAux (op : BooleanOperation) :
    Nat → List Interaction → List Interaction → Bool → Bool → Int → List Interaction
  | 0, _, _, _, _, _ => []
  | fuel + 1, lss, rss, lStart, rStart, counter =>
    if op = BooleanOperation.Intersection ∧ (lss = [] ∨ rss = []) then []
    else if op = BooleanOperation.Difference ∧ lss = [] then []
    else
      match lss, rss with
      | [], [] => []
      | l :: ls, [] =>
          let ca := counter + (if lStart then 1 else -1)
          (if addInteraction op counter ca then [l] else []) ++
            computeInteractionsAux op fuel ls [] (!lStart) rStart ca
      | [], r :: rs =>
          let ca := counter + (if rStart then 1 else -1)
          (if addInteraction op counter ca then [flipNormalIfDifference op r] else []) ++
            computeInteractionsAux op fuel [] rs lStart (!rStart) ca
      | l :: ls, r :: rs =>
          if l.d < r.d then
            let ca := counter + (if lStart then 1 else -1)
            (if addInteraction op counter ca then [l] else []) ++
              computeInteractionsAux op fuel ls (r :: rs) (!lStart) rStart ca
          else
            let ca := counter + (if rStart then 1 else -1)
            (if addInteraction op counter ca then [flipNormalIfDifference op r] else []) ++
              computeInteractionsAux op fuel (l :: ls) rs lStart (!rStart) ca

/-- Translation of `CsgNode::computeInteractions` (`src/core/csg_node.inl`
lines 82-130): initial parities from the list-length parities (with the right
list's parity inverted for `Difference`), initial inside-count from the
parities, then the merge loop. -/
def computeInteractions (op : BooleanOperation) (isLeft isRight : List Interaction) :
    List Interaction :=
  let lStart := isLeft.length % 2 == 0
  let rStart := isRight.length % 2 == (if op = BooleanOperation.Difference then 1 else 0)
  let counter : Int := (if lStart then 0 else 1) + (if rStart then 0 else 1)
  computeInteractionsAux op (isLeft.length + isRight.length) isLeft isRight lStart rStart counter

/-- Modelled from the spec: `std::merge` of the two sorted interaction lists
with the distance comparator `compareInteractions` (`src/core/csg_node.inl`
lines 164-167); an element of the right list is taken only when its distance is
strictly smaller, which reproduces the stability of `std::merge`.  `fuel` again
makes the recursion structural. -/
def mergeInteractionsAux : Nat → List Interaction → List Interaction → List Interaction
  | 0, _, _ => []
  | _ + 1, [], ys => ys
  | _ + 1, x :: xs, [] => x :: xs
  | fuel + 1, x :: xs, y :: ys =>
      if y.d < x.d then y :: mergeInteractionsAux fuel (x :: xs) ys
      else x :: mergeInteractionsAux fuel xs (y :: ys)

/-- Merge entry point with enough fuel for the whole run. -/
def mergeInteractions (xs ys : List Interaction) : List Interaction :=
  mergeInteractionsAux (xs.length + ys.length) xs ys

/-- Translation of `CsgNode::intersect` (`src/core/csg_node.inl` lines 132-194).
The bounding-box test and the two child queries are abstracted as inputs: `bh`
is the result of `box.intersect(r, tMin, tMax)` and `isLeft`/`isRight` are the
sorted complete interaction lists the children return (the child calls receive
copies of `r` and `countHits = true`, so the child hit counts are the list
lengths).  The final `r.tMax = is[0].d` of the source indexes the output list
unconditionally whenever `countHits` is false; the model returns `none` exactly
when that read would touch an empty list, and otherwise `some` of the hit
count, the output list and the updated ray.  The translation is split into the
output-list selection (`combinedList`, source lines 160-186), the tail past the
early returns (`intersectTail`, lines 160-193) and the early-return chain
(`intersect` itself, lines 141-158). -/
def combinedList (op : BooleanOperation) (isLeft isRight : List Interaction) :
    List Interaction :=
  if isLeft ≠ [] ∧ isRight ≠ [] then
    if op = BooleanOperation.None then mergeInteractions isLeft isRight
    else computeInteractions op isLeft isRight
  else if isLeft ≠ [] then isLeft
  else isRight

/-- Tail of `CsgNode::intersect` past the early returns (`src/core/csg_node.inl`
lines 160-193): the output list from `combinedList`, the hit count as its
length, and — when not counting hits — the unguarded `r.tMax = is[0].d`,
modelled by `none` on an empty list. -/
def intersectTail (op : BooleanOperation) (isLeft isRight : List Interaction)
    (r : Ray) (countHits : Bool) : Option (Nat × List Interaction × Ray) :=
  let is := combinedList op isLeft isRight
  if countHits = true then some (is.length, is, r)
  else
    match is.head? with
    | some i0 => some (is.length, is, { r with tMax := i0.d })
    | none => none

def intersect (op : BooleanOperation) (bh : Bool)
    (isLeft isRight : List Interaction) (r : Ray) (countHits : Bool) :
    Option (Nat × List Interaction × Ray) :=
  if bh = false then some (0, [], r)
  else if isLeft = [] ∧ (op = BooleanOperation.Intersection ∨ op = BooleanOperation.Difference) then
    some (0, [], r)
  else if isLeft = [] ∧ isRight = [] then some (0, [], r)
  else if isLeft ≠ [] ∧ isRight = [] ∧ op = BooleanOperation.Intersection then some (0, [], r)
  else intersectTail op isLeft isRight r countHits

/-- Modelled from the spec: a bounding sphere with centre `c` (one coordinate)
and squared radius `r2`. -/
structure BoundingSphere where
  c : ℚ
  r2 : ℚ
deriving DecidableEq, Repr

/-- Result of a closest-point query: the returned flag, the written interaction
(unchanged caller value on a `false` return) and the sphere after the call. -/
structure ClosestPointResult where
  found : Bool
  i : Interaction
  s : BoundingSphere
deriving DecidableEq, Repr

/-- Translation of `CsgNode::findClosestPoint` (`src/core/csg_node.inl` lines
196-277).  The box-overlap test and the two child queries are abstracted as
inputs (`bo`, and `foundLeft`/`iLeft`, `foundRight`/`iRight`; the children act
on copies of the sphere, so only `s` itself matters here); `i0` is the caller's
interaction, left untouched on every `false` return.  The translation is split
into the both-found combination (`combineClosestBoth`, source lines 221-254),
the overall interaction selection (`combineClosest`, lines 221-269) and the
early-return chain plus radius shrink (`findClosestPoint` itself). -/
def combineClosestBoth (op : BooleanOperation) (iLeft iRight : Interaction)
    (s : BoundingSphere) : Interaction :=
  let sdLeft := iLeft.signedDistance s.c
  let sdRight := iRight.signedDistance s.c
  let info := if iLeft.distanceInfo = DistanceInfo.Exact ∧
                 iRight.distanceInfo = DistanceInfo.Exact
              then DistanceInfo.Exact else DistanceInfo.Bounded
  if op = BooleanOperation.Union then
    let sel := if sdLeft < sdRight then iLeft else iRight
    { sel with distanceInfo :=
        if info = DistanceInfo.Exact ∧ 0 < sdLeft ∧ 0 < sdRight
        then DistanceInfo.Exact else DistanceInfo.Bounded }
  else if op = BooleanOperation.Intersection then
    let sel := if sdLeft > sdRight then iLeft else iRight
    { sel with distanceInfo :=
        if info = DistanceInfo.Exact ∧ sdLeft < 0 ∧ sdRight < 0
        then DistanceInfo.Exact else DistanceInfo.Bounded }
  else if op = BooleanOperation.Difference then
    let iRightFlipped : Interaction := { iRight with n := -iRight.n, sign := -iRight.sign }
    let sel := if sdLeft > -sdRight then iLeft else iRightFlipped
    { sel with distanceInfo :=
        if info = DistanceInfo.Exact ∧ sdLeft < 0 ∧ 0 < sdRight
        then DistanceInfo.Exact else DistanceInfo.Bounded }
  else
    if iLeft.d < iRight.d then iLeft else iRight

/-- Selection of the interaction written on a `true` return (`src/core/csg_node.inl`
lines 221-269): the signed-distance combination when both children found a
point, otherwise the single found child's interaction. -/
def combineClosest (op : BooleanOperation) (foundLeft : Bool) (iLeft : Interaction)
    (foundRight : Bool) (iRight : Interaction) (s : BoundingSphere) : Interaction :=
  if foundLeft = true ∧ foundRight = true then combineClosestBoth op iLeft iRight s
  else if foundLeft = true then iLeft
  else iRight

def findClosestPoint (op : BooleanOperation) (bo : Bool)
    (foundLeft : Bool) (iLeft : Interaction)
    (foundRight : Bool) (iRight : Interaction)
    (s : BoundingSphere) (i0 : Interaction) : ClosestPointResult :=
  if bo = false then ⟨false, i0, s⟩
  else if foundLeft = false ∧
      (op = BooleanOperation.Intersection ∨ op = BooleanOperation.Difference) then ⟨false, i0, s⟩
  else if foundLeft = false ∧ foundRight = false then ⟨false, i0, s⟩
  else if foundLeft = true ∧ foundRight = false ∧ op = BooleanOperation.Intersection then
    ⟨false, i0, s⟩
  else
    let i := combineClosest op foundLeft iLeft foundRight iRight s
    ⟨true, i, { s with r2 := min s.r2 (i.d * i.d) }⟩

/-- Modelled from the spec: the maximum-float sentinel `maxFloat`; the literal
is the exact integer value of the largest finite single-precision float,
`(2 - 2⁻²³) · 2¹²⁷`. -/
def maxFloat : ℚ := 340282346638528859811704183484516925440

/-- Translation of `CsgNode::signedVolume` (`src/core/csg_node.inl` lines
65-80); `box.volume()` and the children's recursive `signedVolume()` calls are
abstracted as the inputs `boxVolume`, `leftVolume` and `rightVolume`. -/
def signedVolume (op : BooleanOperation) (boxVolume leftVolume rightVolume : ℚ) : ℚ :=
  let bv := if boxVolume = 0 then maxFloat else boxVolume
  if op = BooleanOperation.Intersection then min bv (min leftVolume rightVolume)
  else if op = BooleanOperation.Difference then min bv leftVolume
  else min bv (leftVolume + rightVolume)

/-- Modelled from the spec: an axis-aligned bounding box with a tight-fit flag;
corner points are rational coordinate lists. -/
structure BoundingBox where
  pMin : List ℚ
  pMax : List ℚ
  isTight : Bool
deriving DecidableEq, Repr

/-- Modelled from the spec: the extent vector `pMax - pMin` of a box. -/
def BoundingBox.extent (b : BoundingBox) : List ℚ :=
  List.zipWith (fun lo hi => hi - lo) b.pMin b.pMax

/-- Modelled from the spec: squared Euclidean norm of a coordinate list. -/
def squaredNorm (v : List ℚ) : ℚ := (v.map (fun x => x * x)).sum

/-- Modelled from the spec: the empty box of dimension `dim` set up by the
constructor initialiser `box(false)`; its corners start at the float sentinels
so that any expansion replaces them. -/
def emptyBox (dim : Nat) (tight : Bool) : BoundingBox :=
  ⟨List.replicate dim maxFloat, List.replicate dim (-maxFloat), tight⟩

/-- Modelled from the spec: `expandToInclude` grows a box to cover another box
by componentwise minima and maxima; the receiving box's tight flag is kept. -/
def BoundingBox.expandToInclude (b other : BoundingBox) : BoundingBox :=
  ⟨List.zipWith min b.pMin other.pMin, List.zipWith max b.pMax other.pMax, b.isTight⟩

/-- Translation of `CsgNode::computeBoundingBox` (`src/core/csg_node.inl` lines
20-44), starting from the empty box `box(false)` set up by the constructor. -/
def computeBoundingBox (dim : Nat) (op : BooleanOperation)
    (leftBox rightBox : BoundingBox) : BoundingBox :=
  let box := emptyBox dim false
  if op = BooleanOperation.Intersection then
    box.expandToInclude
      (if squaredNorm leftBox.extent < squaredNorm rightBox.extent then leftBox else rightBox)
  else if op = BooleanOperation.Difference then
    box.expandToInclude leftBox
  else
    let box2 := (box.expandToInclude leftBox).expandToInclude rightBox
    { box2 with isTight := leftBox.isTight && rightBox.isTight }

/-- Componentwise well-formedness of a box of dimension `dim`: real float
coordinates lie between the sentinels, so expanding the empty box onto such a
box reproduces its corners. -/
def BoundingBox.WellFormed (b : BoundingBox) (dim : Nat) : Prop :=
  b.pMin.length = dim ∧ b.pMax.length = dim ∧
    (∀ x ∈ b.pMin, x ≤ maxFloat) ∧ (∀ x ∈ b.pMax, -maxFloat ≤ x)

instance (b : BoundingBox) (dim : Nat) : Decidable (b.WellFormed dim) := by
  unfold BoundingBox.WellFormed
  infer_instance

/-- Ascending-by-distance ordering of an interaction list. -/
def DSorted (l : List Interaction) : Prop :=
  l.Pairwise (fun a b => a.d ≤ b.d)

instance (l : List Interaction) : Decidable (DSorted l) := by
  unfold DSorted; infer_instance

/-- C1: on the hand-computed example (left child crossings at distances 1 and 4,
right child crossings at 2 and 5, both lists even-length), the parity merge of
`CsgNode::computeInteractions`, and `CsgNode::intersect` on top of it, produce
the distance list {1,5} for `Union`, {2,4} for `Intersection` and {1,2} for
`Difference`, the second `Difference` output being the right child's crossing
with its normal negated (n = -20 against the original n = 20). -/
theorem computeInteractions_parity_example :
    computeInteractions BooleanOperation.Union
        [⟨1, 10, 1, DistanceInfo.Exact⟩, ⟨4, 11, 1, DistanceInfo.Exact⟩]
        [⟨2, 20, 1, DistanceInfo.Exact⟩, ⟨5, 21, 1, DistanceInfo.Exact⟩] =
      [⟨1, 10, 1, DistanceInfo.Exact⟩, ⟨5, 21, 1, DistanceInfo.Exact⟩] ∧
    computeInteractions BooleanOperation.Intersection
        [⟨1, 10, 1, DistanceInfo.Exact⟩, ⟨4, 11, 1, DistanceInfo.Exact⟩]
        [⟨2, 20, 1, DistanceInfo.Exact⟩, ⟨5, 21, 1, DistanceInfo.Exact⟩] =
      [⟨2, 20, 1, DistanceInfo.Exact⟩, ⟨4, 11, 1, DistanceInfo.Exact⟩] ∧
    computeInteractions BooleanOperation.Difference
        [⟨1, 10, 1, DistanceInfo.Exact⟩, ⟨4, 11, 1, DistanceInfo.Exact⟩]
        [⟨2, 20, 1, DistanceInfo.Exact⟩, ⟨5, 21, 1, DistanceInfo.Exact⟩] =
      [⟨1, 10, 1, DistanceInfo.Exact⟩, ⟨2, -20, 1, DistanceInfo.Exact⟩] ∧
    intersect BooleanOperation.Union true
        [⟨1, 10, 1, DistanceInfo.Exact⟩, ⟨4, 11, 1, DistanceInfo.Exact⟩]
        [⟨2, 20, 1, DistanceInfo.Exact⟩, ⟨5, 21, 1, DistanceInfo.Exact⟩] ⟨0, 1, 10⟩ true =
      some (2, [⟨1, 10, 1, DistanceInfo.Exact⟩, ⟨5, 21, 1, DistanceInfo.Exact⟩], ⟨0, 1, 10⟩) ∧
    intersect BooleanOperation.Intersection true
        [⟨1, 10, 1, DistanceInfo.Exact⟩, ⟨4, 11, 1, DistanceInfo.Exact⟩]
        [⟨2, 20, 1, DistanceInfo.Exact⟩, ⟨5, 21, 1, DistanceInfo.Exact⟩] ⟨0, 1, 10⟩ true =
      some (2, [⟨2, 20, 1, DistanceInfo.Exact⟩, ⟨4, 11, 1, DistanceInfo.Exact⟩], ⟨0, 1, 10⟩) ∧
    intersect BooleanOperation.Difference true
        [⟨1, 10, 1, DistanceInfo.Exact⟩, ⟨4, 11, 1, DistanceInfo.Exact⟩]
        [⟨2, 20, 1, DistanceInfo.Exact⟩, ⟨5, 21, 1, DistanceInfo.Exact⟩] ⟨0, 1, 10⟩ true =
      some (2, [⟨1, 10, 1, DistanceInfo.Exact⟩, ⟨2, -20, 1, DistanceInfo.Exact⟩], ⟨0, 1, 10⟩) := by
  decide

/-- C2 (the claim fails on the code): for the disjoint `Intersection` example,
left crossings at {1,2} and right crossings at {3,4}, the boolean combination
is empty although both child lists are non-empty, so `CsgNode::intersect` with
`countHits = false` reaches the unguarded `r.tMax = is[0].d` of line 190 of
`src/core/csg_node.inl` with `is` empty; the model returns `none`, its marker
for that out-of-bounds read, instead of the safe zero-hit result the claim
describes.  With `countHits = true` the same input returns a clean zero. -/
theorem intersect_empty_combination_reads_oob :
    computeInteractions BooleanOperation.Intersection
        [⟨1, 1, 1, DistanceInfo.Exact⟩, ⟨2, 1, 1, DistanceInfo.Exact⟩]
        [⟨3, 1, 1, DistanceInfo.Exact⟩, ⟨4, 1, 1, DistanceInfo.Exact⟩] = [] ∧
    intersect BooleanOperation.Intersection true
        [⟨1, 1, 1, DistanceInfo.Exact⟩, ⟨2, 1, 1, DistanceInfo.Exact⟩]
        [⟨3, 1, 1, DistanceInfo.Exact⟩, ⟨4, 1, 1, DistanceInfo.Exact⟩] ⟨0, 1, 10⟩ false =
      none ∧
    intersect BooleanOperation.Intersection true
        [⟨1, 1, 1, DistanceInfo.Exact⟩, ⟨2, 1, 1, DistanceInfo.Exact⟩]
        [⟨3, 1, 1, DistanceInfo.Exact⟩, ⟨4, 1, 1, DistanceInfo.Exact⟩] ⟨0, 1, 10⟩ true =
      some (0, [], ⟨0, 1, 10⟩) := by
  decide

/-- C10: `CsgNode::signedVolume` substitutes the maximum-float sentinel for a
zero box volume and combines with the children's volumes by the per-operation
minima: `min` of both children for `Intersection`, the left child alone for
`Difference`, the sum of both for `Union` and `None`. -/
theorem signedVolume_zero_box_sentinel (op : BooleanOperation) (bv l r : ℚ) :
    signedVolume BooleanOperation.Intersection 0 l r = min maxFloat (min l r) ∧
    signedVolume BooleanOperation.Difference 0 l r = min maxFloat l ∧
    signedVolume BooleanOperation.Union 0 l r = min maxFloat (l + r) ∧
    signedVolume BooleanOperation.None 0 l r = min maxFloat (l + r) ∧
    (bv ≠ 0 →
      signedVolume op bv l r =
        (if op = BooleanOperation.Intersection then min bv (min l r)
         else if op = BooleanOperation.Difference then min bv l
         else min bv (l + r))) := by
  refine ⟨by simp [signedVolume], by simp [signedVolume], by simp [signedVolume],
    by simp [signedVolume], fun h => by simp [signedVolume, h]⟩

/-- Witness for C10 at a concrete non-zero box volume. -/
theorem signedVolume_zero_box_sentinel_witness :
    signedVolume BooleanOperation.Union 5 1 2 =
      (if BooleanOperation.Union = BooleanOperation.Intersection then min (5 : ℚ) (min 1 2)
       else if BooleanOperation.Union = BooleanOperation.Difference then min (5 : ℚ) 1
       else min (5 : ℚ) (1 + 2)) :=
  (signedVolume_zero_box_sentinel BooleanOperation.Union 5 1 2).2.2.2.2 (by norm_num)

/-- Selection by a strict less-than computes the minimum. -/
lemma ite_lt_eq_min (a b : ℚ) : (if a < b then a else b) = min a b := by
  split_ifs with h
  · exact (min_eq_left h.le).symm
  · exact (min_eq_right (not_lt.mp h)).symm

/-- Selection by a strict greater-than computes the maximum. -/
lemma ite_gt_eq_max (a b : ℚ) : (if a > b then a else b) = max a b := by
  split_ifs with h
  · exact (max_eq_left h.le).symm
  · exact (max_eq_right (not_lt.mp h)).symm

/-- Condition unfolding for the exactness selector. -/
lemma info_ite_eq_exact_iff (A : Prop) [Decidable A] :
    (if A then DistanceInfo.Exact else DistanceInfo.Bounded) = DistanceInfo.Exact ↔ A := by
  split_ifs with h <;> simp [h]

/-- Reduction of `findClosestPoint` when the box test passes and both children
report a point. -/
lemma findClosestPoint_both_found (op : BooleanOperation) (iL iR i0 : Interaction)
    (s : BoundingSphere) :
    findClosestPoint op true true iL true iR s i0 =
      ⟨true, combineClosestBoth op iL iR s,
        { s with r2 := min s.r2 ((combineClosestBoth op iL iR s).d *
                                 (combineClosestBoth op iL iR s).d) }⟩ := by
  unfold findClosestPoint combineClosest
  simp

/-- Unfolding of the both-found combination for `Union`. -/
lemma combineClosestBoth_union (iL iR : Interaction) (s : BoundingSphere) :
    combineClosestBoth BooleanOperation.Union iL iR s =
      { (if iL.signedDistance s.c < iR.signedDistance s.c then iL else iR) with
        distanceInfo :=
          if (iL.distanceInfo = DistanceInfo.Exact ∧ iR.distanceInfo = DistanceInfo.Exact) ∧
              0 < iL.signedDistance s.c ∧ 0 < iR.signedDistance s.c
          then DistanceInfo.Exact else DistanceInfo.Bounded } := by
  unfold combineClosestBoth
  simp [info_ite_eq_exact_iff]

/-- Unfolding of the both-found combination for `Intersection`. -/
lemma combineClosestBoth_inter (iL iR : Interaction) (s : BoundingSphere) :
    combineClosestBoth BooleanOperation.Intersection iL iR s =
      { (if iL.signedDistance s.c > iR.signedDistance s.c then iL else iR) with
        distanceInfo :=
          if (iL.distanceInfo = DistanceInfo.Exact ∧ iR.distanceInfo = DistanceInfo.Exact) ∧
              iL.signedDistance s.c < 0 ∧ iR.signedDistance s.c < 0
          then DistanceInfo.Exact else DistanceInfo.Bounded } := by
  unfold combineClosestBoth
  simp [info_ite_eq_exact_iff]

/-- Unfolding of the both-found combination for `Difference`. -/
lemma combineClosestBoth_diff (iL iR : Interaction) (s : BoundingSphere) :
    combineClosestBoth BooleanOperation.Difference iL iR s =
      { (if iL.signedDistance s.c > -(iR.signedDistance s.c) then iL
         else { iR with n := -iR.n, sign := -iR.sign }) with
        distanceInfo :=
          if (iL.distanceInfo = DistanceInfo.Exact ∧ iR.distanceInfo = DistanceInfo.Exact) ∧
              iL.signedDistance s.c < 0 ∧ 0 < iR.signedDistance s.c
          then DistanceInfo.Exact else DistanceInfo.Bounded } := by
  unfold combineClosestBoth
  simp [info_ite_eq_exact_iff]

/-- Unfolding of the both-found combination for `None`. -/
lemma combineClosestBoth_none (iL iR : Interaction) (s : BoundingSphere) :
    combineClosestBoth BooleanOperation.None iL iR s =
      if iL.d < iR.d then iL else iR := by
  unfold combineClosestBoth
  simp

/-- Changing only `distanceInfo` leaves the signed distance unchanged. -/
lemma signedDistance_update (a : Interaction) (di : DistanceInfo) (x : ℚ) :
    ({ a with distanceInfo := di } : Interaction).signedDistance x = a.signedDistance x := rfl

/-- Signed distance commutes with selection. -/
lemma signedDistance_ite (c : Prop) [Decidable c] (a b : Interaction) (x : ℚ) :
    (if c then a else b).signedDistance x =
      if c then a.signedDistance x else b.signedDistance x :=
  apply_ite (fun i => Interaction.signedDistance i x) c a b

/-- Flipping normal and sign negates the signed distance. -/
lemma signedDistance_flip (a : Interaction) (x : ℚ) :
    ({ a with n := -a.n, sign := -a.sign } : Interaction).signedDistance x =
      -(a.signedDistance x) := by
  simp [Interaction.signedDistance, neg_mul]

/-- C3 (counterexample): for `Union` with both children `Exact` and both signed
distances strictly positive, `CsgNode::findClosestPoint` marks the combined
result `Exact` (line 233-235 of `src/core/csg_node.inl`), whereas the claim says
exactly this configuration degrades to `Bounded`. -/
theorem findClosestPoint_union_exactness_cex :
    Interaction.distanceInfo ⟨1, 0, 1, DistanceInfo.Exact⟩ = DistanceInfo.Exact ∧
    Interaction.distanceInfo ⟨2, 0, 1, DistanceInfo.Exact⟩ = DistanceInfo.Exact ∧
    0 < Interaction.signedDistance ⟨1, 0, 1, DistanceInfo.Exact⟩ 0 ∧
    0 < Interaction.signedDistance ⟨2, 0, 1, DistanceInfo.Exact⟩ 0 ∧
    (findClosestPoint BooleanOperation.Union true true ⟨1, 0, 1, DistanceInfo.Exact⟩ true
        ⟨2, 0, 1, DistanceInfo.Exact⟩ ⟨0, 100⟩ ⟨0, 0, 1, DistanceInfo.Bounded⟩).i.distanceInfo ≠
      DistanceInfo.Bounded := by
  refine ⟨rfl, rfl, by norm_num [Interaction.signedDistance],
    by norm_num [Interaction.signedDistance], ?_⟩
  norm_num [findClosestPoint_both_found, combineClosestBoth_union, Interaction.signedDistance]
  decide

/-- C3 (amended): when both children report a result, the combined
`distanceInfo` is `Exact` for `Union` precisely when both children are `Exact`
and both signed distances are strictly positive; for `Intersection` precisely
when both are `Exact` and both signed distances are strictly negative; for
`Difference` precisely when both are `Exact`, the left signed distance is
negative and the right one positive; and for `None` the nearer child's
exactness is inherited unchanged. -/
theorem findClosestPoint_distanceInfo_rule (iL iR i0 : Interaction) (s : BoundingSphere) :
    ((findClosestPoint BooleanOperation.Union true true iL true iR s i0).i.distanceInfo =
        DistanceInfo.Exact ↔
      iL.distanceInfo = DistanceInfo.Exact ∧ iR.distanceInfo = DistanceInfo.Exact ∧
        0 < iL.signedDistance s.c ∧ 0 < iR.signedDistance s.c) ∧
    ((findClosestPoint BooleanOperation.Intersection true true iL true iR s i0).i.distanceInfo =
        DistanceInfo.Exact ↔
      iL.distanceInfo = DistanceInfo.Exact ∧ iR.distanceInfo = DistanceInfo.Exact ∧
        iL.signedDistance s.c < 0 ∧ iR.signedDistance s.c < 0) ∧
    ((findClosestPoint BooleanOperation.Difference true true iL true iR s i0).i.distanceInfo =
        DistanceInfo.Exact ↔
      iL.distanceInfo = DistanceInfo.Exact ∧ iR.distanceInfo = DistanceInfo.Exact ∧
        iL.signedDistance s.c < 0 ∧ 0 < iR.signedDistance s.c) ∧
    ((findClosestPoint BooleanOperation.None true true iL true iR s i0).i.distanceInfo =
      (if iL.d < iR.d then iL else iR).distanceInfo) := by
  refine ⟨?_, ?_, ?_, ?_⟩
  · simp [findClosestPoint_both_found, combineClosestBoth_union, info_ite_eq_exact_iff,
      and_assoc]
  · simp [findClosestPoint_both_found, combineClosestBoth_inter, info_ite_eq_exact_iff,
      and_assoc]
  · simp [findClosestPoint_both_found, combineClosestBoth_diff, info_ite_eq_exact_iff,
      and_assoc]
  · simp [findClosestPoint_both_found, combineClosestBoth_none]

/-- C4: when both children report a result, the interaction returned by
`CsgNode::findClosestPoint` is the child achieving `min(sdLeft, sdRight)` for
`Union`; the child achieving `max(sdLeft, sdRight)` for `Intersection`; for
`Difference` the larger of `sdLeft` and `-sdRight` after negating the right
child's normal and sign; and for `None` the child with the smaller unsigned
distance, returned unchanged. -/
theorem findClosestPoint_selection_rule (iL iR i0 : Interaction) (s : BoundingSphere) :
    ((findClosestPoint BooleanOperation.Union true true iL true iR s i0).i.d =
        (if iL.signedDistance s.c < iR.signedDistance s.c then iL else iR).d ∧
      (findClosestPoint BooleanOperation.Union true true iL true iR s i0).i.n =
        (if iL.signedDistance s.c < iR.signedDistance s.c then iL else iR).n ∧
      (findClosestPoint BooleanOperation.Union true true iL true iR s i0).i.sign =
        (if iL.signedDistance s.c < iR.signedDistance s.c then iL else iR).sign ∧
      (findClosestPoint BooleanOperation.Union true true iL true iR s i0).i.signedDistance s.c =
        min (iL.signedDistance s.c) (iR.signedDistance s.c)) ∧
    ((findClosestPoint BooleanOperation.Intersection true true iL true iR s i0).i.d =
        (if iL.signedDistance s.c > iR.signedDistance s.c then iL else iR).d ∧
      (findClosestPoint BooleanOperation.Intersection true true iL true iR s i0).i.n =
        (if iL.signedDistance s.c > iR.signedDistance s.c then iL else iR).n ∧
      (findClosestPoint BooleanOperation.Intersection true true iL true iR s i0).i.sign =
        (if iL.signedDistance s.c > iR.signedDistance s.c then iL else iR).sign ∧
      (findClosestPoint BooleanOperation.Intersection true true iL true iR s i0).i.signedDistance
          s.c =
        max (iL.signedDistance s.c) (iR.signedDistance s.c)) ∧
    ((findClosestPoint BooleanOperation.Difference true true iL true iR s i0).i.d =
        (if iL.signedDistance s.c > -(iR.signedDistance s.c) then iL
         else { iR with n := -iR.n, sign := -iR.sign }).d ∧
      (findClosestPoint BooleanOperation.Difference true true iL true iR s i0).i.n =
        (if iL.signedDistance s.c > -(iR.signedDistance s.c) then iL
         else { iR with n := -iR.n, sign := -iR.sign }).n ∧
      (findClosestPoint BooleanOperation.Difference true true iL true iR s i0).i.sign =
        (if iL.signedDistance s.c > -(iR.signedDistance s.c) then iL
         else { iR with n := -iR.n, sign := -iR.sign }).sign ∧
      (findClosestPoint BooleanOperation.Difference true true iL true iR s i0).i.signedDistance
          s.c =
        max (iL.signedDistance s.c) (-(iR.signedDistance s.c))) ∧
    ((findClosestPoint BooleanOperation.None true true iL true iR s i0).i =
      if iL.d < iR.d then iL else iR) := by
  refine ⟨⟨?_, ?_, ?_, ?_⟩, ⟨?_, ?_, ?_, ?_⟩, ⟨?_, ?_, ?_, ?_⟩, ?_⟩
  · rw [findClosestPoint_both_found, combineClosestBoth_union]
  · rw [findClosestPoint_both_found, combineClosestBoth_union]
  · rw [findClosestPoint_both_found, combineClosestBoth_union]
  · rw [findClosestPoint_both_found, combineClosestBoth_union]
    show Interaction.signedDistance
        (if iL.signedDistance s.c < iR.signedDistance s.c then iL else iR) s.c = _
    rw [signedDistance_ite, ite_lt_eq_min]
  · rw [findClosestPoint_both_found, combineClosestBoth_inter]
  · rw [findClosestPoint_both_found, combineClosestBoth_inter]
  · rw [findClosestPoint_both_found, combineClosestBoth_inter]
  · rw [findClosestPoint_both_found, combineClosestBoth_inter]
    show Interaction.signedDistance
        (if iL.signedDistance s.c > iR.signedDistance s.c then iL else iR) s.c = _
    rw [signedDistance_ite, ite_gt_eq_max]
  · rw [findClosestPoint_both_found, combineClosestBoth_diff]
  · rw [findClosestPoint_both_found, combineClosestBoth_diff]
  · rw [findClosestPoint_both_found, combineClosestBoth_diff]
  · rw [findClosestPoint_both_found, combineClosestBoth_diff]
    show Interaction.signedDistance
        (if iL.signedDistance s.c > -(iR.signedDistance s.c) then iL
         else { iR with n := -iR.n, sign := -iR.sign }) s.c = _
    rw [signedDistance_ite, signedDistance_flip, ite_gt_eq_max]
  · rw [findClosestPoint_both_found, combineClosestBoth_none]

/-- C8: across every call of `CsgNode::findClosestPoint` the query sphere's
squared radius never grows, and on every `true` return it equals the minimum of
its previous value and the combined result's squared distance. -/
theorem findClosestPoint_r2_monotone (op : BooleanOperation) (bo fL : Bool) (iL : Interaction)
    (fR : Bool) (iR : Interaction) (s : BoundingSphere) (i0 : Interaction) :
    (findClosestPoint op bo fL iL fR iR s i0).s.r2 ≤ s.r2 ∧
    ((findClosestPoint op bo fL iL fR iR s i0).found = true →
      (findClosestPoint op bo fL iL fR iR s i0).s.r2 =
        min s.r2 ((findClosestPoint op bo fL iL fR iR s i0).i.d *
                  (findClosestPoint op bo fL iL fR iR s i0).i.d)) := by
  unfold findClosestPoint
  split_ifs <;> simp [min_le_left]

/-- Witness for C8: a concrete `Union` query that returns `true`. -/
theorem findClosestPoint_r2_monotone_witness :
    (findClosestPoint BooleanOperation.Union true true ⟨1, 0, 1, DistanceInfo.Exact⟩ true
        ⟨2, 0, 1, DistanceInfo.Exact⟩ ⟨0, 100⟩ ⟨0, 0, 1, DistanceInfo.Bounded⟩).s.r2 =
      min (100 : ℚ)
        ((findClosestPoint BooleanOperation.Union true true ⟨1, 0, 1, DistanceInfo.Exact⟩ true
            ⟨2, 0, 1, DistanceInfo.Exact⟩ ⟨0, 100⟩ ⟨0, 0, 1, DistanceInfo.Bounded⟩).i.d *
          (findClosestPoint BooleanOperation.Union true true ⟨1, 0, 1, DistanceInfo.Exact⟩ true
            ⟨2, 0, 1, DistanceInfo.Exact⟩ ⟨0, 100⟩ ⟨0, 0, 1, DistanceInfo.Bounded⟩).i.d) :=
  (findClosestPoint_r2_monotone BooleanOperation.Union true true ⟨1, 0, 1, DistanceInfo.Exact⟩
    true ⟨2, 0, 1, DistanceInfo.Exact⟩ ⟨0, 100⟩ ⟨0, 0, 1, DistanceInfo.Bounded⟩).2 rfl

/-- C5: the early-return behaviour of `CsgNode::intersect`: no left hits under
`Intersection`/`Difference` gives zero hits; no hits on either side gives zero
hits; left hits with no right hits give zero hits and an empty list under
`Intersection`, and the left list unchanged under `Union`/`None`/`Difference`;
right hits with no left hits give the right list unchanged under
`Union`/`None`.  Every miss is a zero count, never a failure. -/
theorem intersect_early_exits (op : BooleanOperation) (a b : Interaction)
    (ls rs isRight : List Interaction) (r : Ray) (ch : Bool) :
    ((op = BooleanOperation.Intersection ∨ op = BooleanOperation.Difference) →
      intersect op true [] isRight r ch = some (0, [], r)) ∧
    intersect op true [] [] r ch = some (0, [], r) ∧
    intersect BooleanOperation.Intersection true (a :: ls) [] r ch = some (0, [], r) ∧
    ((op = BooleanOperation.Union ∨ op = BooleanOperation.None ∨
        op = BooleanOperation.Difference) →
      intersect op true (a :: ls) [] r ch =
        some (ls.length + 1, a :: ls, if ch = true then r else { r with tMax := a.d })) ∧
    ((op = BooleanOperation.Union ∨ op = BooleanOperation.None) →
      intersect op true [] (b :: rs) r ch =
        some (rs.length + 1, b :: rs, if ch = true then r else { r with tMax := b.d })) := by
  refine ⟨fun h => by simp [intersect, h], ?_, ?_, fun h => ?_, fun h => ?_⟩
  · cases op <;> simp [intersect]
  · simp [intersect]
  · rcases h with rfl | rfl | rfl <;> cases ch <;>
      simp [intersect, intersectTail, combinedList]
  · rcases h with rfl | rfl <;> cases ch <;>
      simp [intersect, intersectTail, combinedList]

/-- Witness for C5: a concrete right-only `Difference` miss and a concrete
left-only `Union` hit list passed through unchanged. -/
theorem intersect_early_exits_witness :
    intersect BooleanOperation.Difference true [] [⟨1, 0, 1, DistanceInfo.Exact⟩] ⟨0, 1, 10⟩
        true = some (0, [], ⟨0, 1, 10⟩) ∧
    intersect BooleanOperation.Union true [⟨1, 0, 1, DistanceInfo.Exact⟩] [] ⟨0, 1, 10⟩ false =
      some (1, [⟨1, 0, 1, DistanceInfo.Exact⟩], ⟨0, 1, 1⟩) :=
  ⟨(intersect_early_exits BooleanOperation.Difference ⟨1, 0, 1, DistanceInfo.Exact⟩
      ⟨1, 0, 1, DistanceInfo.Exact⟩ [] [] [⟨1, 0, 1, DistanceInfo.Exact⟩] ⟨0, 1, 10⟩ true).1
      (Or.inr rfl),
   (intersect_early_exits BooleanOperation.Union ⟨1, 0, 1, DistanceInfo.Exact⟩
      ⟨1, 0, 1, DistanceInfo.Exact⟩ [] [] [] ⟨0, 1, 10⟩ false).2.2.2.1 (Or.inl rfl)⟩

/-- Empty lists are trivially distance-sorted. -/
lemma dsorted_nil : DSorted [] := List.Pairwise.nil

/-- Prepending a common lower bound preserves distance order. -/
lemma dsorted_cons {a : Interaction} {l : List Interaction}
    (hb : ∀ z ∈ l, a.d ≤ z.d) (hl : DSorted l) : DSorted (a :: l) :=
  List.Pairwise.cons hb hl

/-- Tail of a distance-sorted list. -/
lemma DSorted.tail_of_cons {a : Interaction} {l : List Interaction}
    (h : DSorted (a :: l)) : DSorted l :=
  (List.pairwise_cons.mp h).2

/-- Head bound of a distance-sorted list. -/
lemma DSorted.bound_of_cons {a : Interaction} {l : List Interaction}
    (h : DSorted (a :: l)) : ∀ z ∈ l, a.d ≤ z.d :=
  (List.pairwise_cons.mp h).1

/-- The `Difference` normal flip keeps the distance. -/
lemma flipNormalIfDifference_d (op : BooleanOperation) (i : Interaction) :
    (flipNormalIfDifference op i).d = i.d := by
  unfold flipNormalIfDifference
  split_ifs <;> rfl

/-- One-step equation of the merge loop when both lists are exhausted. -/
lemma computeInteractionsAux_nil_nil (op : BooleanOperation) (n : Nat) (lS rS : Bool)
    (c : Int) :
    computeInteractionsAux op (n + 1) [] [] lS rS c = [] := by
  simp [computeInteractionsAux]

/-- One-step equation of the merge loop when the left list is exhausted. -/
lemma computeInteractionsAux_left_nil (op : BooleanOperation) (n : Nat) (r : Interaction)
    (rs : List Interaction) (lS rS : Bool) (c : Int) :
    computeInteractionsAux op (n + 1) [] (r :: rs) lS rS c =
      if op = BooleanOperation.Intersection ∨ op = BooleanOperation.Difference then []
      else
        (if addInteraction op c (c + if rS = true then 1 else -1) = true
         then [flipNormalIfDifference op r] else []) ++
          computeInteractionsAux op n [] rs lS (!rS) (c + if rS = true then 1 else -1) := by
  by_cases h1 : op = BooleanOperation.Intersection
  · simp [computeInteractionsAux, h1]
  · by_cases h2 : op = BooleanOperation.Difference
    · simp [computeInteractionsAux, h1, h2]
    · simp [computeInteractionsAux, h1, h2]

/-- One-step equation of the merge loop when the right list is exhausted. -/
lemma computeInteractionsAux_right_nil (op : BooleanOperation) (n : Nat) (l : Interaction)
    (ls : List Interaction) (lS rS : Bool) (c : Int) :
    computeInteractionsAux op (n + 1) (l :: ls) [] lS rS c =
      if op = BooleanOperation.Intersection then []
      else
        (if addInteraction op c (c + if lS = true then 1 else -1) = true then [l] else []) ++
          computeInteractionsAux op n ls [] (!lS) rS (c + if lS = true then 1 else -1) := by
  by_cases h1 : op = BooleanOperation.Intersection <;>
    simp [computeInteractionsAux, h1]

/-- One-step equation of the merge loop when both lists still hold crossings. -/
lemma computeInteractionsAux_cons_cons (op : BooleanOperation) (n : Nat)
    (l r : Interaction) (ls rs : List Interaction) (lS rS : Bool) (c : Int) :
    computeInteractionsAux op (n + 1) (l :: ls) (r :: rs) lS rS c =
      if l.d < r.d then
        (if addInteraction op c (c + if lS = true then 1 else -1) = true then [l] else []) ++
          computeInteractionsAux op n ls (r :: rs) (!lS) rS (c + if lS = true then 1 else -1)
      else
        (if addInteraction op c (c + if rS = true then 1 else -1) = true
         then [flipNormalIfDifference op r] else []) ++
          computeInteractionsAux op n (l :: ls) rs lS (!rS) (c + if rS = true then 1 else -1) := by
  have hg1 : ¬(op = BooleanOperation.Intersection ∧ (l :: ls = [] ∨ r :: rs = [])) := by simp
  have hg2 : ¬(op = BooleanOperation.Difference ∧ l :: ls = []) := by simp
  simp only [computeInteractionsAux]
  rw [if_neg hg1, if_neg hg2]

/-- The parity merge emits only interactions no nearer than a common lower
bound of its two input lists. -/
lemma computeInteractionsAux_lower_bound (op : BooleanOperation) (b : ℚ) :
    ∀ (fuel : Nat) (lss rss : List Interaction) (lS rS : Bool) (c : Int),
      (∀ z ∈ lss, b ≤ z.d) → (∀ z ∈ rss, b ≤ z.d) →
      ∀ z ∈ computeInteractionsAux op fuel lss rss lS rS c, b ≤ z.d := by
  intro fuel
  induction fuel with
  | zero =>
    intro lss rss lS rS c _ _ z hz
    simp [computeInteractionsAux] at hz
  | succ n ih =>
    intro lss rss lS rS c hL hR z hz
    rcases lss with _ | ⟨l, ls⟩ <;> rcases rss with _ | ⟨r, rs⟩
    · rw [computeInteractionsAux_nil_nil] at hz
      simp at hz
    · rw [computeInteractionsAux_left_nil] at hz
      by_cases hg : op = BooleanOperation.Intersection ∨ op = BooleanOperation.Difference
      · rw [if_pos hg] at hz
        simp at hz
      · rw [if_neg hg] at hz
        by_cases he : addInteraction op c (c + if rS = true then 1 else -1) = true
        · rw [if_pos he, List.singleton_append] at hz
          rcases List.mem_cons.mp hz with rfl | hz1
          · rw [flipNormalIfDifference_d]
            exact hR r (List.mem_cons_self r rs)
          · exact ih [] rs lS (!rS) _ (by simp)
              (fun w hw => hR w (List.mem_cons_of_mem r hw)) z hz1
        · rw [if_neg he, List.nil_append] at hz
          exact ih [] rs lS (!rS) _ (by simp)
            (fun w hw => hR w (List.mem_cons_of_mem r hw)) z hz
    · rw [computeInteractionsAux_right_nil] at hz
      by_cases hg : op = BooleanOperation.Intersection
      · rw [if_pos hg] at hz
        simp at hz
      · rw [if_neg hg] at hz
        by_cases he : addInteraction op c (c + if lS = true then 1 else -1) = true
        · rw [if_pos he, List.singleton_append] at hz
          rcases List.mem_cons.mp hz with rfl | hz1
          · exact hL _ (List.mem_cons_self _ _)
          · exact ih ls [] (!lS) rS _ (fun w hw => hL w (List.mem_cons_of_mem l hw))
              (by simp) z hz1
        · rw [if_neg he, List.nil_append] at hz
          exact ih ls [] (!lS) rS _ (fun w hw => hL w (List.mem_cons_of_mem l hw))
            (by simp) z hz
    · rw [computeInteractionsAux_cons_cons] at hz
      by_cases hcmp : l.d < r.d
      · rw [if_pos hcmp] at hz
        by_cases he : addInteraction op c (c + if lS = true then 1 else -1) = true
        · rw [if_pos he, List.singleton_append] at hz
          rcases List.mem_cons.mp hz with rfl | hz1
          · exact hL _ (List.mem_cons_self _ _)
          · exact ih ls (r :: rs) (!lS) rS _
              (fun w hw => hL w (List.mem_cons_of_mem l hw)) hR z hz1
        · rw [if_neg he, List.nil_append] at hz
          exact ih ls (r :: rs) (!lS) rS _
            (fun w hw => hL w (List.mem_cons_of_mem l hw)) hR z hz
      · rw [if_neg hcmp] at hz
        by_cases he : addInteraction op c (c + if rS = true then 1 else -1) = true
        · rw [if_pos he, List.singleton_append] at hz
          rcases List.mem_cons.mp hz with rfl | hz1
          · rw [flipNormalIfDifference_d]
            exact hR r (List.mem_cons_self r rs)
          · exact ih (l :: ls) rs lS (!rS) _ hL
              (fun w hw => hR w (List.mem_cons_of_mem r hw)) z hz1
        · rw [if_neg he, List.nil_append] at hz
          exact ih (l :: ls) rs lS (!rS) _ hL
            (fun w hw => hR w (List.mem_cons_of_mem r hw)) z hz

/-- The parity merge of two distance-sorted lists is distance-sorted. -/
lemma computeInteractionsAux_dsorted (op : BooleanOperation) :
    ∀ (fuel : Nat) (lss rss : List Interaction) (lS rS : Bool) (c : Int),
      DSorted lss → DSorted rss →
      DSorted (computeInteractionsAux op fuel lss rss lS rS c) := by
  intro fuel
  induction fuel with
  | zero =>
    intro lss rss lS rS c _ _
    simp only [computeInteractionsAux]
    exact dsorted_nil
  | succ n ih =>
    intro lss rss lS rS c hl hr
    rcases lss with _ | ⟨l, ls⟩ <;> rcases rss with _ | ⟨r, rs⟩
    · rw [computeInteractionsAux_nil_nil]
      exact dsorted_nil
    · rw [computeInteractionsAux_left_nil]
      by_cases hg : op = BooleanOperation.Intersection ∨ op = BooleanOperation.Difference
      · rw [if_pos hg]
        exact dsorted_nil
      · rw [if_neg hg]
        by_cases he : addInteraction op c (c + if rS = true then 1 else -1) = true
        · rw [if_pos he, List.singleton_append]
          refine dsorted_cons ?_ (ih [] rs lS (!rS) _ dsorted_nil hr.tail_of_cons)
          intro z hz
          rw [flipNormalIfDifference_d]
          exact computeInteractionsAux_lower_bound op r.d n [] rs lS (!rS) _ (by simp)
            hr.bound_of_cons z hz
        · rw [if_neg he, List.nil_append]
          exact ih [] rs lS (!rS) _ dsorted_nil hr.tail_of_cons
    · rw [computeInteractionsAux_right_nil]
      by_cases hg : op = BooleanOperation.Intersection
      · rw [if_pos hg]
        exact dsorted_nil
      · rw [if_neg hg]
        by_cases he : addInteraction op c (c + if lS = true then 1 else -1) = true
        · rw [if_pos he, List.singleton_append]
          refine dsorted_cons ?_ (ih ls [] (!lS) rS _ hl.tail_of_cons dsorted_nil)
          intro z hz
          exact computeInteractionsAux_lower_bound op l.d n ls [] (!lS) rS _
            hl.bound_of_cons (by simp) z hz
        · rw [if_neg he, List.nil_append]
          exact ih ls [] (!lS) rS _ hl.tail_of_cons dsorted_nil
    · rw [computeInteractionsAux_cons_cons]
      by_cases hcmp : l.d < r.d
      · rw [if_pos hcmp]
        by_cases he : addInteraction op c (c + if lS = true then 1 else -1) = true
        · rw [if_pos he, List.singleton_append]
          refine dsorted_cons ?_ (ih ls (r :: rs) (!lS) rS _ hl.tail_of_cons hr)
          intro z hz
          refine computeInteractionsAux_lower_bound op l.d n ls (r :: rs) (!lS) rS _
            hl.bound_of_cons ?_ z hz
          intro w hw
          rcases List.mem_cons.mp hw with rfl | hw1
          · exact hcmp.le
          · exact hcmp.le.trans (hr.bound_of_cons w hw1)
        · rw [if_neg he, List.nil_append]
          exact ih ls (r :: rs) (!lS) rS _ hl.tail_of_cons hr
      · rw [if_neg hcmp]
        by_cases he : addInteraction op c (c + if rS = true then 1 else -1) = true
        · rw [if_pos he, List.singleton_append]
          refine dsorted_cons ?_ (ih (l :: ls) rs lS (!rS) _ hl hr.tail_of_cons)
          intro z hz
          rw [flipNormalIfDifference_d]
          refine computeInteractionsAux_lower_bound op r.d n (l :: ls) rs lS (!rS) _
            ?_ hr.bound_of_cons z hz
          intro w hw
          rcases List.mem_cons.mp hw with rfl | hw1
          · exact not_lt.mp hcmp
          · exact (not_lt.mp hcmp).trans (hl.bound_of_cons w hw1)
        · rw [if_neg he, List.nil_append]
          exact ih (l :: ls) rs lS (!rS) _ hl hr.tail_of_cons

/-- Elements of the stable distance merge come from one of the inputs. -/
lemma mergeInteractionsAux_mem :
    ∀ (fuel : Nat) (xs ys : List Interaction) (z : Interaction),
      z ∈ mergeInteractionsAux fuel xs ys → z ∈ xs ∨ z ∈ ys := by
  intro fuel
  induction fuel with
  | zero =>
    intro xs ys z hz
    simp [mergeInteractionsAux] at hz
  | succ n ih =>
    intro xs ys z hz
    rcases xs with _ | ⟨x, xs'⟩
    · simp only [mergeInteractionsAux] at hz
      exact Or.inr hz
    rcases ys with _ | ⟨y, ys'⟩
    · simp only [mergeInteractionsAux] at hz
      exact Or.inl hz
    simp only [mergeInteractionsAux] at hz
    split_ifs at hz with hcmp
    · rcases List.mem_cons.mp hz with rfl | hz1
      · exact Or.inr (List.mem_cons_self _ _)
      · rcases ih (x :: xs') ys' z hz1 with h | h
        · exact Or.inl h
        · exact Or.inr (List.mem_cons_of_mem _ h)
    · rcases List.mem_cons.mp hz with rfl | hz1
      · exact Or.inl (List.mem_cons_self _ _)
      · rcases ih xs' (y :: ys') z hz1 with h | h
        · exact Or.inl (List.mem_cons_of_mem _ h)
        · exact Or.inr h

/-- The stable distance merge of two distance-sorted lists is distance-sorted. -/
lemma mergeInteractionsAux_dsorted :
    ∀ (fuel : Nat) (xs ys : List Interaction), DSorted xs → DSorted ys →
      DSorted (mergeInteractionsAux fuel xs ys) := by
  intro fuel
  induction fuel with
  | zero =>
    intro xs ys _ _
    simp only [mergeInteractionsAux]
    exact dsorted_nil
  | succ n ih =>
    intro xs ys hx hy
    rcases xs with _ | ⟨x, xs'⟩
    · simpa only [mergeInteractionsAux] using hy
    rcases ys with _ | ⟨y, ys'⟩
    · simpa only [mergeInteractionsAux] using hx
    simp only [mergeInteractionsAux]
    split_ifs with hcmp
    · refine dsorted_cons ?_ (ih (x :: xs') ys' hx hy.tail_of_cons)
      intro z hz
      rcases mergeInteractionsAux_mem n (x :: xs') ys' z hz with h | h
      · rcases List.mem_cons.mp h with rfl | h1
        · exact hcmp.le
        · exact hcmp.le.trans (hx.bound_of_cons z h1)
      · exact hy.bound_of_cons z h
    · refine dsorted_cons ?_ (ih xs' (y :: ys') hx.tail_of_cons hy)
      intro z hz
      rcases mergeInteractionsAux_mem n xs' (y :: ys') z hz with h | h
      · exact hx.bound_of_cons z h
      · rcases List.mem_cons.mp h with rfl | h1
        · exact not_lt.mp hcmp
        · exact (not_lt.mp hcmp).trans (hy.bound_of_cons z h1)

/-- Sorted output of the full parity merge. -/
lemma computeInteractions_dsorted (op : BooleanOperation) (L R : List Interaction)
    (hl : DSorted L) (hr : DSorted R) : DSorted (computeInteractions op L R) := by
  unfold computeInteractions
  exact computeInteractionsAux_dsorted op (L.length + R.length) L R _ _ _ hl hr

/-- Sorted output of the full stable merge. -/
lemma mergeInteractions_dsorted (L R : List Interaction)
    (hl : DSorted L) (hr : DSorted R) : DSorted (mergeInteractions L R) := by
  unfold mergeInteractions
  exact mergeInteractionsAux_dsorted (L.length + R.length) L R hl hr

/-- Sorted output of the per-operation list selection. -/
lemma combinedList_dsorted (op : BooleanOperation) (L R : List Interaction)
    (hl : DSorted L) (hr : DSorted R) : DSorted (combinedList op L R) := by
  unfold combinedList
  split_ifs
  · exact mergeInteractions_dsorted L R hl hr
  · exact computeInteractions_dsorted op L R hl hr
  · exact hl
  · exact hr

/-- Shape of every defined (`some`) result of `intersect`: either an
early-return with zero hits and the ray untouched, or the combined list with
its length as hit count, the ray untouched when counting hits and its `tMax`
set to the head distance otherwise. -/
lemma intersect_some_shape (op : BooleanOperation) (bh : Bool) (L R : List Interaction)
    (r : Ray) (ch : Bool) (hits : Nat) (lst : List Interaction) (r' : Ray)
    (heq : intersect op bh L R r ch = some (hits, lst, r')) :
    (lst = [] ∧ hits = 0 ∧ r' = r) ∨
    (lst = combinedList op L R ∧ hits = lst.length ∧
      ((ch = true ∧ r' = r) ∨
        (ch = false ∧ ∃ i0, lst.head? = some i0 ∧ r' = { r with tMax := i0.d }))) := by
  unfold intersect at heq
  split_ifs at heq
  all_goals try
    (simp only [Option.some.injEq, Prod.mk.injEq] at heq
     obtain ⟨h1, h2, h3⟩ := heq
     exact Or.inl ⟨h2.symm, h1.symm, h3.symm⟩)
  simp only [intersectTail] at heq
  cases ch
  · rw [if_neg Bool.false_ne_true] at heq
    rcases hh : (combinedList op L R).head? with _ | i0
    · rw [hh] at heq
      exact Option.noConfusion heq
    · rw [hh] at heq
      simp only [Option.some.injEq, Prod.mk.injEq] at heq
      obtain ⟨h1, h2, h3⟩ := heq
      refine Or.inr ⟨h2.symm, h1.symm.trans (congrArg List.length h2), Or.inr ⟨rfl, i0, ?_, h3.symm⟩⟩
      rw [← h2]
      exact hh
  · rw [if_pos rfl] at heq
    simp only [Option.some.injEq, Prod.mk.injEq] at heq
    obtain ⟨h1, h2, h3⟩ := heq
    exact Or.inr ⟨h2.symm, h1.symm.trans (congrArg List.length h2), Or.inl ⟨rfl, h3.symm⟩⟩

/-- C7: assuming both children return distance-sorted interaction lists, every
list `CsgNode::intersect` builds is distance-sorted: the stable merge used for
`None`, the parity merge used for `Union`/`Intersection`/`Difference`, and
every list a defined call returns. -/
theorem intersect_output_sorted (op : BooleanOperation) (bh : Bool)
    (L R : List Interaction) (r : Ray) (ch : Bool)
    (hl : DSorted L) (hr : DSorted R) :
    DSorted (mergeInteractions L R) ∧ DSorted (computeInteractions op L R) ∧
    ∀ hits lst r', intersect op bh L R r ch = some (hits, lst, r') → DSorted lst := by
  refine ⟨mergeInteractions_dsorted L R hl hr, computeInteractions_dsorted op L R hl hr, ?_⟩
  intro hits lst r' heq
  rcases intersect_some_shape op bh L R r ch hits lst r' heq with ⟨rfl, _, _⟩ | ⟨rfl, _, _⟩
  · exact dsorted_nil
  · exact combinedList_dsorted op L R hl hr

/-- Witness for C7 on the hand-computed `Union` example. -/
theorem intersect_output_sorted_witness :
    DSorted [(⟨1, 10, 1, DistanceInfo.Exact⟩ : Interaction), ⟨5, 21, 1, DistanceInfo.Exact⟩] :=
  (intersect_output_sorted BooleanOperation.Union true
      [⟨1, 10, 1, DistanceInfo.Exact⟩, ⟨4, 11, 1, DistanceInfo.Exact⟩]
      [⟨2, 20, 1, DistanceInfo.Exact⟩, ⟨5, 21, 1, DistanceInfo.Exact⟩] ⟨0, 1, 10⟩ true
      (by decide) (by decide)).2.2 2
    [⟨1, 10, 1, DistanceInfo.Exact⟩, ⟨5, 21, 1, DistanceInfo.Exact⟩] ⟨0, 1, 10⟩ (by decide)

/-- C9: a defined call of `CsgNode::intersect` changes the caller's ray only in
`tMax`: origin and direction are preserved, the ray is returned untouched when
counting hits, and otherwise, whenever at least one hit is found, `tMax` is set
to the head distance of the returned list — the nearest resulting crossing, as
it bounds every returned distance when the child lists are sorted.  The node's
own state (operation tag, cached box, children) is an input of the model and is
never written. -/
theorem intersect_ray_frame (op : BooleanOperation) (bh : Bool)
    (L R : List Interaction) (r : Ray) (ch : Bool) (hits : Nat)
    (lst : List Interaction) (r' : Ray)
    (heq : intersect op bh L R r ch = some (hits, lst, r')) :
    r'.o = r.o ∧ r'.dir = r.dir ∧
    (ch = true → r' = r) ∧
    (ch = false → 0 < hits →
      ∃ i0, lst.head? = some i0 ∧ r'.tMax = i0.d ∧
        (DSorted L → DSorted R → ∀ x ∈ lst, r'.tMax ≤ x.d)) := by
  rcases intersect_some_shape op bh L R r ch hits lst r' heq with
    ⟨rfl, rfl, rfl⟩ | ⟨hcl, hlen, hcase⟩
  · exact ⟨rfl, rfl, fun _ => rfl, fun _ h0 => absurd h0 (lt_irrefl 0)⟩
  · rcases hcase with ⟨hch, rfl⟩ | ⟨hch, i0, hhead, rfl⟩
    · refine ⟨rfl, rfl, fun _ => rfl, fun hf _ => ?_⟩
      rw [hch] at hf
      exact absurd hf (by simp)
    · refine ⟨rfl, rfl, fun ht => ?_, fun _ _ => ⟨i0, hhead, rfl, fun hsl hsr x hx => ?_⟩⟩
      · rw [hch] at ht
        exact absurd ht (by simp)
      · have hs : DSorted lst := by
          rw [hcl]
          exact combinedList_dsorted op L R hsl hsr
        rcases lst with _ | ⟨a, tl⟩
        · exact absurd hhead (by simp)
        · have ha : a = i0 := by simpa using hhead
          subst ha
          rcases List.mem_cons.mp hx with rfl | hx1
          · exact le_refl _
          · exact hs.bound_of_cons x hx1

/-- Witness for C9 on the hand-computed `Union` example with
`countHits = false`. -/
theorem intersect_ray_frame_witness :
    (⟨0, 1, 1⟩ : Ray).o = (⟨0, 1, 10⟩ : Ray).o :=
  (intersect_ray_frame BooleanOperation.Union true
      [⟨1, 10, 1, DistanceInfo.Exact⟩, ⟨4, 11, 1, DistanceInfo.Exact⟩]
      [⟨2, 20, 1, DistanceInfo.Exact⟩, ⟨5, 21, 1, DistanceInfo.Exact⟩] ⟨0, 1, 10⟩ false 2
      [⟨1, 10, 1, DistanceInfo.Exact⟩, ⟨5, 21, 1, DistanceInfo.Exact⟩] ⟨0, 1, 1⟩
      (by decide)).1

/-- Componentwise minimum against the sentinel corner is the identity on real
float coordinates. -/
lemma zipWith_min_replicate (xs : List ℚ) (hb : ∀ x ∈ xs, x ≤ maxFloat) :
    List.zipWith min (List.replicate xs.length maxFloat) xs = xs := by
  induction xs with
  | nil => rfl
  | cons a t ih =>
    simp only [List.length_cons, List.replicate_succ, List.zipWith_cons_cons]
    rw [min_eq_right (hb a (List.mem_cons_self a t)),
      ih (fun x hx => hb x (List.mem_cons_of_mem a hx))]

/-- Componentwise maximum against the sentinel corner is the identity on real
float coordinates. -/
lemma zipWith_max_replicate (xs : List ℚ) (hb : ∀ x ∈ xs, -maxFloat ≤ x) :
    List.zipWith max (List.replicate xs.length (-maxFloat)) xs = xs := by
  induction xs with
  | nil => rfl
  | cons a t ih =>
    simp only [List.length_cons, List.replicate_succ, List.zipWith_cons_cons]
    rw [max_eq_right (hb a (List.mem_cons_self a t)),
      ih (fun x hx => hb x (List.mem_cons_of_mem a hx))]

/-- Expanding the empty box onto a well-formed box reproduces its corners. -/
lemma expandToInclude_empty (dim : Nat) (t : Bool) (b : BoundingBox)
    (hb : b.WellFormed dim) :
    (emptyBox dim t).expandToInclude b = ⟨b.pMin, b.pMax, t⟩ := by
  obtain ⟨h1, h2, h3, h4⟩ := hb
  unfold emptyBox BoundingBox.expandToInclude
  simp only [BoundingBox.mk.injEq]
  refine ⟨?_, ?_, trivial⟩
  · rw [← h1]
    exact zipWith_min_replicate b.pMin h3
  · rw [← h2]
    exact zipWith_max_replicate b.pMax h4

/-- C6: the bounding box a CSG node caches at construction is: for
`Intersection`, the corners of the child box with the smaller extent by squared
norm (not a tight intersection box); for `Difference`, the left child's
corners; for `Union` and `None`, the componentwise enclosure of both children's
boxes, marked tight exactly when both children's boxes are tight. -/
theorem computeBoundingBox_rule (dim : Nat) (lB rB : BoundingBox)
    (hl : lB.WellFormed dim) (hr : rB.WellFormed dim) :
    computeBoundingBox dim BooleanOperation.Intersection lB rB =
      { (if squaredNorm lB.extent < squaredNorm rB.extent then lB else rB) with
        isTight := false } ∧
    computeBoundingBox dim BooleanOperation.Difference lB rB =
      { lB with isTight := false } ∧
    (∀ op, op = BooleanOperation.Union ∨ op = BooleanOperation.None →
      computeBoundingBox dim op lB rB =
        ⟨List.zipWith min lB.pMin rB.pMin, List.zipWith max lB.pMax rB.pMax,
          lB.isTight && rB.isTight⟩) := by
  have hcb : (if squaredNorm lB.extent < squaredNorm rB.extent then lB else rB).WellFormed
      dim := by
    split_ifs
    · exact hl
    · exact hr
  have h1 : (emptyBox dim false).expandToInclude lB = ⟨lB.pMin, lB.pMax, false⟩ :=
    expandToInclude_empty dim false lB hl
  refine ⟨?_, ?_, ?_⟩
  · exact expandToInclude_empty dim false _ hcb
  · exact expandToInclude_empty dim false lB hl
  · rintro op (rfl | rfl)
    · rw [show computeBoundingBox dim BooleanOperation.Union lB rB =
          { ((emptyBox dim false).expandToInclude lB).expandToInclude rB with
            isTight := lB.isTight && rB.isTight } from rfl, h1]
      rfl
    · rw [show computeBoundingBox dim BooleanOperation.None lB rB =
          { ((emptyBox dim false).expandToInclude lB).expandToInclude rB with
            isTight := lB.isTight && rB.isTight } from rfl, h1]
      rfl

/-- Witness for C6 on concrete one-dimensional boxes. -/
theorem computeBoundingBox_rule_witness :
    computeBoundingBox 1 BooleanOperation.Difference ⟨[0], [1], true⟩ ⟨[-1], [2], true⟩ =
      { (⟨[0], [1], true⟩ : BoundingBox) with isTight := false } ∧
    computeBoundingBox 1 BooleanOperation.Union ⟨[0], [1], true⟩ ⟨[-1], [2], true⟩ =
      ⟨List.zipWith min [0] [-1], List.zipWith max [1] [2], true && true⟩ :=
  ⟨(computeBoundingBox_rule 1 ⟨[0], [1], true⟩ ⟨[-1], [2], true⟩ (by decide) (by decide)).2.1,
   (computeBoundingBox_rule 1 ⟨[0], [1], true⟩ ⟨[-1], [2], true⟩ (by decide)
      (by decide)).2.2 BooleanOperation.Union (Or.inl rfl)⟩

end Fcpw
